import Mathlib

/-!
Verification of the mwaacli local-runner lifecycle against its source.

The development shallowly embeds the relevant Go functions:
the docker client helpers (pkg/docker/docker.go), the env-file utilities
(pkg/util/util.go), the local runner (pkg/local), the installer
(pkg/local/installer.go) and the start command flow (cmd/local.go).
External effects (the docker daemon, the filesystem, HTTP responses) are
modelled as explicit state or as input traces supplied to the functions.
-/

set_option maxRecDepth 10000

deriving instance DecidableEq for Except

/-! ## Container state and WaitForContainerReady (pkg/docker/docker.go:261-289) -/

/-- Mirror of the docker SDK container state fields read by
WaitForContainerReady: Running, Restarting, Dead and ExitCode. -/
structure ContainerState where
  running : Bool
  restarting : Bool
  dead : Bool
  exitCode : Int
deriving DecidableEq, Repr

/-- Outcome of WaitForContainerReady. The Go function returns nil on
success, an error carrying the exit code when the container exited, and a
timeout error when the deadline passes. -/
inductive WaitResult where
  | ready : WaitResult
  | exited (code : Int) : WaitResult
  | timeout : WaitResult
deriving DecidableEq, Repr

/-- One iteration per one-second tick of the loop in WaitForContainerReady:
inspect, return on Running, keep waiting on Restarting, fail on Dead or a
non-zero exit code, otherwise poll again.  The fuel argument is the number
of ticks remaining until the timeout channel fires. -/
def waitLoop (inspect : Nat → ContainerState) : Nat → Nat → WaitResult
  | 0, _ => .timeout
  | fuel + 1, i =>
    let s := inspect i
    if s.running then .ready
    else if s.restarting then waitLoop inspect fuel (i + 1)
    else if s.dead || s.exitCode != 0 then .exited s.exitCode
    else waitLoop inspect fuel (i + 1)

/-- WaitForContainerReady polls once per second, performing at most
timeoutSeconds inspections before the timeout fires; inspect n is the
container state observed by inspection number n. -/
def waitForContainerReady (inspect : Nat → ContainerState) (timeoutSeconds : Nat) : WaitResult :=
  waitLoop inspect timeoutSeconds 0

/-- A state on which the loop keeps polling: not running, and either
restarting or neither dead nor exited non-zero. -/
def pendingState (s : ContainerState) : Prop :=
  s.running = false ∧ (s.restarting = true ∨ (s.dead = false ∧ s.exitCode = 0))

instance (s : ContainerState) : Decidable (pendingState s) := by
  unfold pendingState; infer_instance

/-- A state that makes the loop return the exit-code failure: not running,
not restarting, and dead or carrying a non-zero exit code. -/
def exitedState (s : ContainerState) : Prop :=
  s.running = false ∧ s.restarting = false ∧ (s.dead = true ∨ s.exitCode ≠ 0)

instance (s : ContainerState) : Decidable (exitedState s) := by
  unfold exitedState; infer_instance

/-! ## Env file parsing (pkg/util/util.go:66-116), on character lists -/

/-- TrimSpace of the Go strings package, on a character list. -/
def trimSpace (s : List Char) : List Char :=
  ((s.dropWhile Char.isWhitespace).reverse.dropWhile Char.isWhitespace).reverse

/-- Split a line at its first equals sign, as SplitN(line, sep, 2) does;
none when the line holds no equals sign. -/
def splitOnceEq : List Char → Option (List Char × List Char)
  | [] => none
  | c :: cs =>
    if c = '=' then some ([], cs)
    else match splitOnceEq cs with
      | none => none
      | some (k, v) => some (c :: k, v)

/-- Index of the first occurrence of a space followed by a hash, used by
ParseEnv to cut inline comments off unquoted values. -/
def spaceHashIdx : List Char → Option Nat
  | [] => none
  | [_] => none
  | a :: b :: rest =>
    if a = ' ' ∧ b = '#' then some 0
    else (spaceHashIdx (b :: rest)).map (· + 1)

/-- Trim of the Go strings package with a one-character cutset: removes
every leading and trailing occurrence of the character. -/
def trimCharAll (c : Char) (s : List Char) : List Char :=
  ((s.dropWhile (· = c)).reverse.dropWhile (· = c)).reverse

/-- ReplaceAll of a backslash-quote pair by a double quote. -/
def unescQuote : List Char → List Char
  | '\\' :: '"' :: rest => '"' :: unescQuote rest
  | c :: rest => c :: unescQuote rest
  | [] => []

/-- ReplaceAll of a backslash-n pair by a newline character. -/
def unescNewline : List Char → List Char
  | '\\' :: 'n' :: rest => '\n' :: unescNewline rest
  | c :: rest => c :: unescNewline rest
  | [] => []

/-- ReplaceAll of a backslash-r pair by a carriage return character. -/
def unescCarriage : List Char → List Char
  | '\\' :: 'r' :: rest => '\r' :: unescCarriage rest
  | c :: rest => c :: unescCarriage rest
  | [] => []

/-- True when the list starts with the given character. -/
def headIs (c : Char) : List Char → Bool
  | [] => false
  | x :: _ => x = c

/-- True when the list ends with the given character. -/
def lastIs (c : Char) (l : List Char) : Bool :=
  headIs c l.reverse

/-- Value processing of ParseEnv: inline-comment truncation for unquoted
values, escape handling and quote stripping for double-quoted values,
verbatim quote stripping for single-quoted values. -/
def processValue (v : List Char) : List Char :=
  let v :=
    if !(headIs '"' v) && !(headIs '\'' v) then
      match spaceHashIdx v with
      | some idx => v.take idx
      | none => v
    else v
  if headIs '"' v && lastIs '"' v then
    unescCarriage (unescNewline (unescQuote (trimCharAll '"' v)))
  else if headIs '\'' v && lastIs '\'' v then
    trimCharAll '\'' v
  else v

/-- Processing of a single line by ParseEnv: none means the line is
skipped, error carries the offending line, ok carries the rendered
KEY=VALUE pair. -/
def parseEnvLine (line : String) : Option (Except String String) :=
  let l := trimSpace line.toList
  if l = [] ∨ headIs '#' l then none
  else match splitOnceEq l with
    | none => some (.error (String.mk l))
    | some (k, v) =>
      let key := trimSpace k
      let value := processValue (trimSpace v)
      some (.ok (String.mk (key ++ '=' :: value)))

/-- ParseEnv over the lines of the input: skipped lines vanish, a
malformed line aborts the whole parse, other lines render as KEY=VALUE. -/
def parseEnv : List String → Except String (List String)
  | [] => .ok []
  | line :: rest =>
    match parseEnvLine line with
    | none => parseEnv rest
    | some (.error e) => .error e
    | some (.ok kv) =>
      match parseEnv rest with
      | .error e => .error e
      | .ok xs => .ok (kv :: xs)

/-! ## MergeEnvVars (pkg/util/util.go:119-144) -/

/-- Lookup in an association list representing the Go map. -/
def lookupAssoc : List (String × String) → String → Option String
  | [], _ => none
  | (k, v) :: rest, key => if k = key then some v else lookupAssoc rest key

/-- Map update: overwrite the entry of the key when present, append it
otherwise. -/
def updateAssoc : List (String × String) → String → String → List (String × String)
  | [], k, v => [(k, v)]
  | (k', v') :: rest, k, v =>
    if k' = k then (k, v) :: rest else (k', v') :: updateAssoc rest k v

/-- One step of the MergeEnvVars loop: entries without an equals sign are
skipped, empty values are dropped when ignoreEmptyValues holds, and every
other entry overwrites the map at its key. -/
def mergeStep (ignoreEmpty : Bool) (acc : List (String × String)) (envVar : String) :
    List (String × String) :=
  match splitOnceEq envVar.toList with
  | none => acc
  | some (k, v) =>
    if ignoreEmpty && v.isEmpty then acc
    else updateAssoc acc (String.mk k) (String.mk v)

/-- MergeEnvVars as the key-to-value map it builds.  The Go function then
renders the map as a slice in unspecified map-iteration order; the model
exposes the map content, which the claims state as a key/value set. -/
def mergeEnvVars (envVars : List String) (ignoreEmpty : Bool) : List (String × String) :=
  envVars.foldl (mergeStep ignoreEmpty) []

/-! ## Docker engine state (pkg/docker/docker.go), modelled explicitly -/

/-- Network record as seen through the docker SDK: identifier, name and
driver. -/
structure NetworkInfo where
  id : Nat
  name : String
  driver : String
deriving DecidableEq, Repr

/-- Container record: identifier, name, the labels as KEY=VALUE strings
(the form the label filter matches on), and whether it is running. -/
structure ContainerInfo where
  id : Nat
  name : String
  image : String
  env : List String
  labels : List String
  running : Bool
deriving DecidableEq, Repr

/-- State of the local docker daemon plus effect counters used to state
how many underlying creations an operation performed.  The dbDataWipes
counter records the destructive filesystem reset performed by the
reset-db option. -/
structure DockerState where
  networks : List NetworkInfo
  containers : List ContainerInfo
  nextId : Nat
  networkCreations : Nat
  containerCreations : Nat
  containerStarts : Nat
  dbDataWipes : Nat
deriving DecidableEq, Repr

/-- The empty daemon state. -/
def DockerState.empty : DockerState :=
  { networks := [], containers := [], nextId := 0,
    networkCreations := 0, containerCreations := 0,
    containerStarts := 0, dbDataWipes := 0 }

/-- ListContainersByLabel (docker.go:297-308): filter by label, and by
running state unless the all flag is set. -/
def listContainersByLabel (s : DockerState) (label : String) (all : Bool) :
    List ContainerInfo :=
  s.containers.filter (fun c => c.labels.contains label && (all || c.running))

/-- ListContainersByName (docker.go:291-295): filter by container name,
and by running state unless the all flag is set. -/
def listContainersByName (s : DockerState) (name : String) (all : Bool) :
    List ContainerInfo :=
  s.containers.filter (fun c => c.name = name && (all || c.running))

/-- CreateNetwork (docker.go:341-364): return the identifier of an
existing network of that name, otherwise create a bridge network. -/
def createNetwork (s : DockerState) (networkName : String) : Nat × DockerState :=
  match s.networks.find? (fun n => n.name = networkName) with
  | some n => (n.id, s)
  | none =>
    (s.nextId,
     { s with
        networks := s.networks ++ [{ id := s.nextId, name := networkName, driver := "bridge" }],
        nextId := s.nextId + 1,
        networkCreations := s.networkCreations + 1 })

/-- ContainerRemove with the force flag, as used by ensureContainer. -/
def removeContainer (s : DockerState) (cid : Nat) : DockerState :=
  { s with containers := s.containers.filter (fun c => c.id ≠ cid) }

/-- ContainerStop (docker.go:310-313): mark the container as not
running. -/
def stopContainer (s : DockerState) (cid : Nat) : DockerState :=
  { s with containers :=
      s.containers.map fun c => if c.id = cid then { c with running := false } else c }

/-- Configuration passed to container creation: image, environment and
labels, the fields of container.Config the model tracks. -/
structure CCfg where
  image : String
  env : List String
  labels : List String
deriving DecidableEq, Repr

/-- ensureContainer (docker.go:194-223): forcibly remove an existing
container of the same name, then create a fresh one (not yet running). -/
def ensureContainer (s : DockerState) (cfg : CCfg) (name : String) : Nat × DockerState :=
  let s :=
    match listContainersByName s name true with
    | [] => s
    | c :: _ => removeContainer s c.id
  let newC : ContainerInfo :=
    { id := s.nextId, name := name, image := cfg.image,
      env := cfg.env, labels := cfg.labels, running := false }
  (s.nextId,
   { s with containers := s.containers ++ [newC],
            nextId := s.nextId + 1,
            containerCreations := s.containerCreations + 1 })

/-- ContainerStart: mark the container as running. -/
def startContainer (s : DockerState) (cid : Nat) : DockerState :=
  { s with
      containers := s.containers.map
        (fun c => if c.id = cid then { c with running := true } else c),
      containerStarts := s.containerStarts + 1 }

/-- RunContainer (docker.go:116-129): ensureContainer then start it. -/
def runContainer (s : DockerState) (cfg : CCfg) (name : String) : Nat × DockerState :=
  let (cid, s1) := ensureContainer s cfg name
  (cid, startContainer s1 cid)

/-- StopContainersByLabel (docker.go:316-338): list the running
containers carrying the label and stop each one; stopping zero
containers is a success. -/
def stopContainersByLabel (s : DockerState) (label : String) : DockerState :=
  (listContainersByLabel s label false).foldl (fun st c => stopContainer st c.id) s

/-! ## Envs overlay (pkg/local/envs.go) -/

/-- AWSCredentials of pkg/local/envs.go. -/
structure AWSCredentials where
  accessKeyID : String
  secretAccessKey : String
  sessionToken : String
  region : String
deriving DecidableEq, Repr

/-- Envs of pkg/local/envs.go: optional credentials plus storage-path
hints. -/
structure Envs where
  credentials : Option AWSCredentials
  s3DagsPath : String
  s3RequirementsPath : String
  s3PluginsPath : String
deriving DecidableEq, Repr

/-- ToSlice (envs.go:27-63) on a non-nil receiver: render the non-empty
fields as KEY=VALUE entries. -/
def Envs.toSlice (e : Envs) : List String :=
  let creds :=
    match e.credentials with
    | none => []
    | some c =>
      (if c.accessKeyID ≠ "" then ["AWS_ACCESS_KEY_ID=" ++ c.accessKeyID] else [])
      ++ (if c.secretAccessKey ≠ "" then ["AWS_SECRET_ACCESS_KEY=" ++ c.secretAccessKey] else [])
      ++ (if c.sessionToken ≠ "" then ["AWS_SESSION_TOKEN=" ++ c.sessionToken] else [])
      ++ (if c.region ≠ "" then
            ["AWS_REGION=" ++ c.region, "AWS_DEFAULT_REGION=" ++ c.region] else [])
  creds
  ++ (if e.s3DagsPath ≠ "" then ["S3_DAGS_PATH=" ++ e.s3DagsPath] else [])
  ++ (if e.s3RequirementsPath ≠ "" then ["S3_REQUIREMENTS_PATH=" ++ e.s3RequirementsPath] else [])
  ++ (if e.s3PluginsPath ≠ "" then ["S3_PLUGINS_PATH=" ++ e.s3PluginsPath] else [])

/-- The call envs.ToSlice() on a possibly-nil pointer: on a nil receiver
the Go method dereferences its fields and faults, modelled as none. -/
def toSliceOfPtr : Option Envs → Option (List String)
  | none => none
  | some e => some e.toSlice

/-- buildEnvironmentVariables (envs.go:66-83): parse the env file, append
the fixed overrides, append the overlay rendering (a nil overlay pointer
faults there, modelled as none), then merge with empty-value
suppression. -/
def buildEnvironmentVariables (envFileLines : List String) (envs : Option Envs) :
    Option (Except String (List (String × String))) :=
  match parseEnv envFileLines with
  | .error e => some (.error e)
  | .ok base =>
    match toSliceOfPtr envs with
    | none => none
    | some overlay =>
      some (.ok (mergeEnvVars (base ++ ["LOAD_EX=n", "EXECUTOR=Local"] ++ overlay) true))

/-! ## Runner configuration and Start (pkg/local, src/unnamed/part_001) -/

/-- LabelKey of pkg/local/local.go. -/
def LabelKey : String := "github.com.hupe1980.mwaacli"

/-- convertVersion of pkg/local/local.go: strip a leading v, replace dots
with underscores. -/
def convertVersion (version : String) : String :=
  let l := if headIs 'v' version.toList then version.toList.drop 1 else version.toList
  String.mk (l.map fun c => if c = '.' then '_' else c)

/-- Runner fields of part_001 consulted by the lifecycle: the airflow
version together with the RunnerOptions fields. -/
structure RunnerCfg where
  airflowVersion : String
  clonePath : String
  networkName : String
  dagsPath : String
  containerLabel : String
deriving DecidableEq, Repr

/-- The label filter string built by Start and Stop: LabelKey=value. -/
def labelFilter (cfg : RunnerCfg) : String :=
  LabelKey ++ "=" ++ cfg.containerLabel

/-- StartOptions of part_001. -/
structure StartOptions where
  port : String
  resetDB : Bool
  envs : Option Envs
deriving DecidableEq, Repr

/-- The defaults Start installs before applying the option functions:
port 8080, no reset, nil Envs pointer. -/
def defaultStartOptions : StartOptions :=
  { port := "8080", resetDB := false, envs := none }

/-- Compose document as parsed by ParseDockerCompose (pkg/docker/parser.go):
service name to image and environment. -/
structure ComposeDoc where
  services : List (String × (String × List String))
deriving DecidableEq, Repr

/-- GetServiceImage / GetServiceEnvironment: fail when the service is
absent. -/
def getService (d : ComposeDoc) (name : String) : Option (String × List String) :=
  (d.services.find? (fun p => p.1 = name)).map (·.2)

/-- External inputs of one Start invocation: whether the requested port is
free, the parse result of docker-compose-local.yml (none is a parse
failure), the state trace the postgres readiness poll observes, and the
lines of the .env.localrunner file. -/
structure StartWorld where
  portFree : Bool
  compose : Option ComposeDoc
  postgresInspect : Nat → ContainerState
  envFileLines : List String

/-- Failure reasons of Start, one per early return of part_001. -/
inductive StartError where
  | portInUse : StartError
  | alreadyRunning : StartError
  | composeParse : StartError
  | serviceNotFound : StartError
  | postgresWait (r : WaitResult) : StartError
  | envFileParse (line : String) : StartError
deriving DecidableEq, Repr

/-- Runner.Start (part_001:84-220) over the modelled daemon state.  The
outer Option is the nil-Envs pointer fault in buildEnvironmentVariables:
none means the Go code panics there.  Otherwise the result carries the
daemon state left behind together with the outcome; every early error
returns the state reached at that point. -/
def runnerStart (cfg : RunnerCfg) (opts : StartOptions) (w : StartWorld)
    (s : DockerState) : Option (DockerState × Except StartError Unit) :=
  if !w.portFree then some (s, .error .portInUse)
  else if !(listContainersByLabel s (labelFilter cfg) false).isEmpty then
    some (s, .error .alreadyRunning)
  else
    match w.compose with
    | none => some (s, .error .composeParse)
    | some compose =>
      let (networkID, s1) := createNetwork s cfg.networkName
      let _ := networkID
      let s2 := if opts.resetDB then { s1 with dbDataWipes := s1.dbDataWipes + 1 } else s1
      match getService compose "postgres" with
      | none => some (s2, .error .serviceNotFound)
      | some (pgImage, pgEnv) =>
        let pgCfg : CCfg := { image := pgImage, env := pgEnv, labels := [labelFilter cfg] }
        let (pgId, s3) := runContainer s2 pgCfg "postgres"
        let _ := pgId
        match waitForContainerReady w.postgresInspect (5 * 60) with
        | .ready =>
          match buildEnvironmentVariables w.envFileLines opts.envs with
          | none => none
          | some (.error e) => some (s3, .error (.envFileParse e))
          | some (.ok mwaaEnv) =>
            let lrCfg : CCfg :=
              { image := "amazon/mwaa-local:" ++ convertVersion cfg.airflowVersion,
                env := mwaaEnv.map (fun p => p.1 ++ "=" ++ p.2),
                labels := [labelFilter cfg] }
            let (lrId, s4) := runContainer s3 lrCfg "local-runner"
            let _ := lrId
            some (s4, .ok ())
        | r => some (s3, .error (.postgresWait r))

/-- Runner.Stop (part_001:222-224): label-scoped stop. -/
def runnerStop (cfg : RunnerCfg) (s : DockerState) : DockerState :=
  stopContainersByLabel s (labelFilter cfg)

/-! ## Readiness poller (part_001:226-275, runner.go:218-257) -/

/-- URL after url.ParseRequestURI: the scheme plus the remainder, which
the poller treats as opaque. -/
structure Url where
  scheme : String
  rest : String
deriving DecidableEq, Repr

/-- Outcome of the readiness poll. -/
inductive PollResult where
  | ready : PollResult
  | timeout : PollResult
  | badScheme : PollResult
deriving DecidableEq, Repr

/-- One GET per tick: the trace gives poll number n either a status code
or none for a transport error.  Any response other than status 200 keeps
polling; the fuel is the number of ticks left in the total budget. -/
def pollLoop (responses : Nat → Option Nat) : Nat → Nat → PollResult
  | 0, _ => .timeout
  | fuel + 1, i =>
    if responses i = some 200 then .ready
    else pollLoop responses fuel (i + 1)

/-- WaitForWebserverReady: reject a scheme other than http or https
before any request is issued, then poll until a 200 response or the
exhaustion of the budget of ticks. -/
def waitForWebserverReady (u : Url) (responses : Nat → Option Nat) (budget : Nat) :
    PollResult :=
  if u.scheme ≠ "http" ∧ u.scheme ≠ "https" then .badScheme
  else pollLoop responses budget 0

/-! ## Installer (pkg/local/installer.go, pkg/util/util.go:37-52) -/

/-- Status of a directory path, the distinction EnsurePathIsEmptyOrNonExistent
draws via ReadDir. -/
inductive PathStatus where
  | absent : PathStatus
  | emptyDir : PathStatus
  | nonEmptyDir : PathStatus
deriving DecidableEq, Repr

/-- EnsurePathIsEmptyOrNonExistent: a missing or empty path is
acceptable, a non-empty one is the error. -/
def ensurePathIsEmptyOrNonExistent (st : PathStatus) : Bool :=
  match st with
  | .absent => true
  | .emptyDir => true
  | .nonEmptyDir => false

/-- Filesystem view of the installer: the status of the clone path and
the relative paths created under the clone path and under the working
directory. -/
structure InstallFS where
  cloneStatus : PathStatus
  underClone : List String
  underCwd : List String
deriving DecidableEq, Repr

/-- Failure reasons of Installer.Run. -/
inductive InstallError where
  | nonEmptyTarget : InstallError
  | cloneFailed : InstallError
deriving DecidableEq, Repr

/-- True when the name matches the skip pattern of installer.go:89, the
regular expression anchored on mwaa-local-env or dot-github, the dot
matching any character. -/
def skipName (n : List Char) : Bool :=
  "mwaa-local-env".toList.isPrefixOf n
  || (match n with
      | [] => false
      | _ :: rest => "github".toList.isPrefixOf rest)

/-- True when the name matches the prefix pattern of installer.go:94. -/
def cloneTreeName (n : List Char) : Bool :=
  "plugins".toList.isPrefixOf n
  || "requirements".toList.isPrefixOf n
  || "startup_script".toList.isPrefixOf n

/-- Placement of one repository file (installer.go:88-99): skipped names
vanish, names under dags go to the working directory, everything else
goes under the clone path. -/
def placeFile (fs : InstallFS) (name : String) : InstallFS :=
  if skipName name.toList then fs
  else if "dags".toList.isPrefixOf name.toList then
    { fs with underCwd := fs.underCwd ++ [name] }
  else { fs with underClone := fs.underClone ++ [name] }

/-- Installer.Run (installer.go:54-111): refuse a non-empty clone path,
clone the tagged tree (none is a clone failure), place every file, then
create the db-data directory, leaving the clone path non-empty.  The
returned state is the filesystem after the run; a failed precondition
leaves it untouched. -/
def installerRun (fs : InstallFS) (repoFiles : Option (List String)) :
    Except InstallError Unit × InstallFS :=
  if !ensurePathIsEmptyOrNonExistent fs.cloneStatus then
    (.error .nonEmptyTarget, fs)
  else
    match repoFiles with
    | none => (.error .cloneFailed, fs)
    | some files =>
      let fs1 := files.foldl placeFile fs
      (.ok (),
       { fs1 with underClone := fs1.underClone ++ ["db-data"],
                  cloneStatus := .nonEmptyDir })

/-! ## TestStartupScript (pkg/local/test.go:49-89) -/

/-- TestStartupScript: render the overlay (a nil Envs pointer faults,
modelled as none) and run the ephemeral container. -/
def testStartupScript (s : DockerState) (envs : Option Envs) :
    Option (DockerState × Nat) :=
  match toSliceOfPtr envs with
  | none => none
  | some env =>
    let cfg : CCfg := { image := "amazon/mwaa-local", env := env, labels := [] }
    let (cid, s1) := runContainer s cfg "test-startup-script"
    some (s1, cid)

/-! ## Specification-side helper for the merge claim -/

/-- Value of the last entry of the list that MergeEnvVars lets through for
the given key: the entry must split at an equals sign, and must have a
non-empty value when ignoreEmpty is set.  This mirrors the wording of the
spec (last occurrence wins, empties dropped under ignoreEmpty). -/
def lastRelevant (ig : Bool) (key : String) : List String → Option String
  | [] => none
  | e :: rest =>
    match lastRelevant ig key rest with
    | some v => some v
    | none =>
      match splitOnceEq e.toList with
      | none => none
      | some (k, v) =>
        if ig && v.isEmpty then none
        else if String.mk k = key then some (String.mk v) else none

/-! ## Start command flow (cmd/local.go:129-239, 549-565) -/

/-- Failure reasons surfaced by the start command. -/
inductive CliError where
  | startFailed (e : StartError) : CliError
  | notReady : CliError
deriving DecidableEq, Repr

/-- External inputs of the CLI start flow: the Start inputs plus the
health endpoint responses and the poll budget derived from the wait
flag. -/
structure CliWorld where
  sw : StartWorld
  health : Nat → Option Nat
  healthBudget : Nat

/-- The URL the start command polls: http on localhost at the chosen
port, health path appended by waitForWebserver (cmd/local.go:557). -/
def healthUrl (port : String) : Url :=
  { scheme := "http", rest := "localhost:" ++ port ++ "/health" }

/-- The start command flow of cmd/local.go:157-179: run Start, and when
it succeeded poll the health endpoint; a poll failure stops the
containers of the session by label before the failure is reported. -/
def startCommandFlow (cfg : RunnerCfg) (opts : StartOptions) (w : CliWorld)
    (s : DockerState) : Option (DockerState × Except CliError Unit) :=
  match runnerStart cfg opts w.sw s with
  | none => none
  | some (s1, .error e) => some (s1, .error (.startFailed e))
  | some (s1, .ok _) =>
    match waitForWebserverReady (healthUrl opts.port) w.health w.healthBudget with
    | .ready => some (s1, .ok ())
    | _ => some (runnerStop cfg s1, .error .notReady)

/-- The option function the start command passes to Start
(cmd/local.go:157-161): it always installs a non-nil Envs pointer built
at cmd/local.go:146. -/
def cliStartOptionFn (port : String) (resetDB : Bool) (creds : Option AWSCredentials)
    (o : StartOptions) : StartOptions :=
  { o with port := port, resetDB := resetDB,
           envs := some { credentials := creds, s3DagsPath := "",
                          s3RequirementsPath := "", s3PluginsPath := "" } }

/-! ## Concrete example inputs used by the witnesses -/

/-- A container that is restarting once, then running. -/
def inspectRestartThenRun : Nat → ContainerState := fun n =>
  if n = 0 then { running := false, restarting := true, dead := false, exitCode := 0 }
  else { running := true, restarting := false, dead := false, exitCode := 0 }

/-- A container that exited with code 137 and stays that way. -/
def inspectExit137 : Nat → ContainerState := fun _ =>
  { running := false, restarting := false, dead := false, exitCode := 137 }

/-- A container that was created and never changes state. -/
def inspectCreatedStuck : Nat → ContainerState := fun _ =>
  { running := false, restarting := false, dead := false, exitCode := 0 }

/-- A container that is running from the first inspection on. -/
def inspectRunningNow : Nat → ContainerState := fun _ =>
  { running := true, restarting := false, dead := false, exitCode := 0 }

/-- Example runner configuration for the version 2.10.3 session. -/
def exCfg : RunnerCfg :=
  { airflowVersion := "v2.10.3",
    clonePath := "./.aws-mwaa-local-runner",
    networkName := "aws-mwaa-local-runner-2_10_3_default",
    dagsPath := ".",
    containerLabel := "aws-mwaa-local-runner-2_10_3" }

/-- Example compose document holding the postgres service. -/
def exCompose : ComposeDoc :=
  { services := [("postgres", ("postgres:11-alpine", ["POSTGRES_USER=airflow"]))] }

/-- Example start world in which every step succeeds. -/
def exWorld : StartWorld :=
  { portFree := true,
    compose := some exCompose,
    postgresInspect := inspectRunningNow,
    envFileLines := ["AIRFLOW__CORE__LOAD_EXAMPLES=False"] }

/-- Example start options with a non-nil Envs overlay. -/
def exOpts : StartOptions :=
  { port := "8080", resetDB := false,
    envs := some { credentials := none, s3DagsPath := "",
                   s3RequirementsPath := "", s3PluginsPath := "" } }

/-- The daemon state a successful start on the empty daemon leaves
behind. -/
def exStartedState : DockerState :=
  match runnerStart exCfg exOpts exWorld DockerState.empty with
  | some (s, _) => s
  | none => DockerState.empty

/-- Health endpoint that answers 503 four times and 200 from the fifth
poll on. -/
def ex503Then200 : Nat → Option Nat := fun i => if i < 4 then some 503 else some 200

/-- Health endpoint that always answers 500. -/
def exAlways500 : Nat → Option Nat := fun _ => some 500

/-- A file scheme URL, rejected by the poller. -/
def exFileUrl : Url := { scheme := "file", rest := "/etc/passwd" }

/-- An http URL accepted by the poller. -/
def exHttpUrl : Url := { scheme := "http", rest := "localhost:8080/health" }

/-- Example CLI world whose health endpoint never becomes healthy. -/
def exCliWorldUnhealthy : CliWorld :=
  { sw := exWorld, health := exAlways500, healthBudget := 40 }

/-- Example filesystem for the installer: the clone path does not exist
yet. -/
def exInstallFS : InstallFS :=
  { cloneStatus := .absent, underClone := [], underCwd := [] }

/-- Example repository tree for the installer. -/
def exRepoFiles : List String :=
  ["dags/example_dag.py", "docker/Dockerfile", ".github/workflows/ci.yml",
   "requirements/requirements.txt", "mwaa-local-env"]

/-- A daemon state holding one stopped container that still carries the
session label. -/
def exStaleState : DockerState :=
  { DockerState.empty with
    containers := [{ id := 7, name := "postgres", image := "postgres:11-alpine",
                     env := [], labels := [labelFilter exCfg], running := false }] }

/-- Identity of a container: every field except the running flag. -/
def containerIdentity (c : ContainerInfo) : Nat × String × String × List String × List String :=
  (c.id, c.name, c.image, c.env, c.labels)

/-! ## Theorems -/

theorem waitLoop_skip (inspect : Nat → ContainerState) (fuel i : Nat)
    (h : pendingState (inspect i)) :
    waitLoop inspect (fuel + 1) i = waitLoop inspect fuel (i + 1) := by
  obtain ⟨hr, hrest⟩ := h
  simp only [waitLoop, hr, Bool.false_eq_true, if_false]
  rcases hrest with hres | ⟨hd, he⟩
  · simp [hres]
  · simp [hd, he]

theorem waitLoop_shift (inspect : Nat → ContainerState) (n : Nat) :
    ∀ (fuel i : Nat), (∀ j, i ≤ j → j < i + n → pendingState (inspect j)) →
      waitLoop inspect (fuel + n) i = waitLoop inspect fuel (i + n) := by
  induction n with
  | zero => intro fuel i _; rfl
  | succ m ih =>
    intro fuel i h
    have hstep : waitLoop inspect (fuel + m + 1) i = waitLoop inspect (fuel + m) (i + 1) :=
      waitLoop_skip inspect (fuel + m) i (h i (Nat.le_refl i) (by omega))
    have htail : waitLoop inspect (fuel + m) (i + 1) = waitLoop inspect fuel (i + 1 + m) :=
      ih fuel (i + 1) (fun j hj1 hj2 => h j (by omega) (by omega))
    calc waitLoop inspect (fuel + (m + 1)) i
        = waitLoop inspect (fuel + m + 1) i := by rw [Nat.add_succ]
      _ = waitLoop inspect (fuel + m) (i + 1) := hstep
      _ = waitLoop inspect fuel (i + 1 + m) := htail
      _ = waitLoop inspect fuel (i + (m + 1)) := by rw [Nat.add_assoc, Nat.add_comm 1 m]

/-- C1: for every sequence of once-per-second inspected states, the wait
ends in success at the first running state, keeps polling over restarting
(and merely-created) states, ends in the exit-code failure at a state
that is dead or carries a non-zero exit code while neither running nor
restarting, and ends in the timeout failure when every state within the
timeout is still pending, so a never-changing created container times
out. -/
theorem c1_waitForContainerReady (inspect : Nat → ContainerState) (t i : Nat)
    (hpend : ∀ j, j < i → pendingState (inspect j)) :
    (i < t → (inspect i).running = true → waitForContainerReady inspect t = .ready)
    ∧ (i < t → exitedState (inspect i) →
        waitForContainerReady inspect t = .exited (inspect i).exitCode)
    ∧ (i = t → waitForContainerReady inspect t = .timeout) := by
  refine ⟨?_, ?_, ?_⟩
  · intro hit hrun
    have hshift : waitLoop inspect ((t - i) + i) 0 = waitLoop inspect (t - i) i := by
      have := waitLoop_shift inspect i (t - i) 0
        (fun j hj1 hj2 => hpend j (by omega))
      simpa using this
    have ht : t = (t - i) + i := by omega
    have hfuel : t - i = (t - i - 1) + 1 := by omega
    unfold waitForContainerReady
    rw [ht, hshift, hfuel]
    simp [waitLoop, hrun]
  · intro hit hex
    obtain ⟨hr, hres, hde⟩ := hex
    have hshift : waitLoop inspect ((t - i) + i) 0 = waitLoop inspect (t - i) i := by
      have := waitLoop_shift inspect i (t - i) 0
        (fun j hj1 hj2 => hpend j (by omega))
      simpa using this
    have ht : t = (t - i) + i := by omega
    have hfuel : t - i = (t - i - 1) + 1 := by omega
    unfold waitForContainerReady
    rw [ht, hshift, hfuel]
    have hcond : ((inspect i).dead || (inspect i).exitCode != 0) = true := by
      rcases hde with hd | he
      · simp [hd]
      · simp [he]
    simp [waitLoop, hr, hres, hcond]
  · intro hit
    subst hit
    have hshift : waitLoop inspect (0 + i) 0 = waitLoop inspect 0 (0 + i) :=
      waitLoop_shift inspect i 0 0 (fun j hj1 hj2 => hpend j (by omega))
    unfold waitForContainerReady
    have h0 : waitLoop inspect 0 (0 + i) = .timeout := rfl
    calc waitLoop inspect i 0 = waitLoop inspect (0 + i) 0 := by rw [Nat.zero_add]
      _ = .timeout := by rw [hshift, h0]

/-- Witness for C1: a restarting container that starts running at the
second inspection succeeds, a container exited with code 137 fails with
that code, and a container that never leaves the created state times
out after the 300 inspections of the five-minute budget. -/
theorem c1_waitForContainerReady_witness :
    waitForContainerReady inspectRestartThenRun 300 = .ready
    ∧ waitForContainerReady inspectExit137 300 = .exited 137
    ∧ waitForContainerReady inspectCreatedStuck 300 = .timeout := by
  refine ⟨?_, ?_, ?_⟩
  · exact (c1_waitForContainerReady inspectRestartThenRun 300 1
      (by intro j hj
          have : j = 0 := by omega
          subst this
          exact ⟨rfl, Or.inl rfl⟩)).1 (by omega) rfl
  · exact (c1_waitForContainerReady inspectExit137 300 0
      (by intro j hj; omega)).2.1 (by omega) ⟨rfl, rfl, Or.inr (by decide)⟩
  · exact (c1_waitForContainerReady inspectCreatedStuck 300 300
      (by intro j hj; exact ⟨rfl, Or.inr ⟨rfl, rfl⟩⟩)).2.2 rfl

theorem find?_append_of_none {α : Type} (p : α → Bool) (l1 l2 : List α)
    (h : l1.find? p = none) : (l1 ++ l2).find? p = l2.find? p := by
  induction l1 with
  | nil => rfl
  | cons x xs ih =>
    rw [List.find?] at h
    rw [List.cons_append, List.find?]
    cases hx : p x with
    | true => rw [hx] at h; simp at h
    | false =>
      rw [hx] at h
      simp only [ih h]

/-- C8: createNetwork is idempotent.  When a network of the name exists,
the identifier of the first such network is returned and the daemon state
is untouched; when none exists, exactly one bridge network is created,
and a second call with the same name returns the identifier of the first
call without further creation.  The function is total, so it never
reports an already-exists failure. -/
theorem c8_createNetwork (s : DockerState) (name : String) :
    (∀ n, s.networks.find? (fun m => m.name = name) = some n →
        createNetwork s name = (n.id, s))
    ∧ (s.networks.find? (fun m => m.name = name) = none →
        (createNetwork s name).2.networkCreations = s.networkCreations + 1
        ∧ (createNetwork s name).2.networks =
            s.networks ++ [{ id := s.nextId, name := name, driver := "bridge" }]
        ∧ createNetwork (createNetwork s name).2 name =
            ((createNetwork s name).1, (createNetwork s name).2)) := by
  constructor
  · intro n hfind
    unfold createNetwork
    rw [hfind]
  · intro hnone
    have hred : createNetwork s name =
        (s.nextId,
         { s with
            networks := s.networks ++ [{ id := s.nextId, name := name, driver := "bridge" }],
            nextId := s.nextId + 1,
            networkCreations := s.networkCreations + 1 }) := by
      unfold createNetwork
      rw [hnone]
    refine ⟨by rw [hred], by rw [hred], ?_⟩
    rw [hred]
    unfold createNetwork
    rw [find?_append_of_none _ _ _ hnone]
    simp [List.find?]

/-- Witness for C8: on the empty daemon, two calls with the same name
yield the same identifier, the second performs no creation, and exactly
one creation happened in total. -/
theorem c8_createNetwork_witness :
    createNetwork (createNetwork DockerState.empty "mwaa-net").2 "mwaa-net" =
      ((createNetwork DockerState.empty "mwaa-net").1,
       (createNetwork DockerState.empty "mwaa-net").2)
    ∧ (createNetwork DockerState.empty "mwaa-net").2.networkCreations = 1 := by
  have h := (c8_createNetwork DockerState.empty "mwaa-net").2 rfl
  exact ⟨h.2.2, h.1⟩

theorem stopContainer_identity (s : DockerState) (cid : Nat) :
    (stopContainer s cid).containers.map containerIdentity
      = s.containers.map containerIdentity := by
  unfold stopContainer
  simp only []
  induction s.containers with
  | nil => rfl
  | cons x xs ih =>
    simp only [List.map_cons, List.map_cons] at *
    rw [ih]
    by_cases h : x.id = cid <;> simp [containerIdentity, h]

theorem stopFold_identity (l : List ContainerInfo) :
    ∀ s : DockerState,
      ((l.foldl (fun st c => stopContainer st c.id) s).containers.map containerIdentity)
        = s.containers.map containerIdentity := by
  induction l with
  | nil => intro s; rfl
  | cons x xs ih =>
    intro s
    rw [List.foldl_cons, ih]
    exact stopContainer_identity s x.id

/-- C10: the already-running guard and the label-scoped stop consult only
running containers, so a state whose label-carrying containers are all
stopped yields an empty listing, is left untouched by the stop, and never
makes Start fail with the already-running error; and the label-scoped
stop never removes a container, preserving every field except the running
flag. -/
theorem c10_label_scoped_running_only (s : DockerState) (cfg : RunnerCfg)
    (h : ∀ c ∈ s.containers, labelFilter cfg ∈ c.labels → c.running = false) :
    listContainersByLabel s (labelFilter cfg) false = []
    ∧ stopContainersByLabel s (labelFilter cfg) = s
    ∧ (∀ opts w s', runnerStart cfg opts w s ≠ some (s', .error .alreadyRunning))
    ∧ (∀ lab, (stopContainersByLabel s lab).containers.map containerIdentity
        = s.containers.map containerIdentity) := by
  have h1 : listContainersByLabel s (labelFilter cfg) false = [] := by
    unfold listContainersByLabel
    rw [List.filter_eq_nil_iff]
    intro c hc hcontra
    simp only [Bool.false_or, Bool.and_eq_true] at hcontra
    obtain ⟨hcont, hrun⟩ := hcontra
    have hl : labelFilter cfg ∈ c.labels := by simpa using hcont
    rw [h c hc hl] at hrun
    exact Bool.false_ne_true hrun
  refine ⟨h1, ?_, ?_, ?_⟩
  · unfold stopContainersByLabel
    rw [h1]
    rfl
  · intro opts w s' hcontra
    unfold runnerStart at hcontra
    rw [h1] at hcontra
    simp only [List.isEmpty_nil, Bool.not_true, Bool.false_eq_true, if_false] at hcontra
    repeat' split at hcontra
    all_goals simp_all
  · intro lab
    unfold stopContainersByLabel
    exact stopFold_identity _ s

/-- Witness for C10: on a state with one stopped container carrying the
session label, the guard listing is empty and the stop touches
nothing. -/
theorem c10_label_scoped_running_only_witness :
    listContainersByLabel exStaleState (labelFilter exCfg) false = []
    ∧ stopContainersByLabel exStaleState (labelFilter exCfg) = exStaleState := by
  have h := c10_label_scoped_running_only exStaleState exCfg (by
    intro c hc hl
    simp only [exStaleState, DockerState.empty, List.mem_singleton] at hc
    rw [hc])
  exact ⟨h.1, h.2.1⟩

/-- C2: when the port preflight passes and the label listing of running
containers is non-empty, Start returns the already-running failure with
the daemon state untouched: no network is created and no container is
created or started. -/
theorem c2_start_duplicate_guard (cfg : RunnerCfg) (opts : StartOptions)
    (w : StartWorld) (s : DockerState)
    (hport : w.portFree = true)
    (hguard : listContainersByLabel s (labelFilter cfg) false ≠ []) :
    runnerStart cfg opts w s = some (s, .error .alreadyRunning) := by
  have hne : (listContainersByLabel s (labelFilter cfg) false).isEmpty = false := by
    cases hl : listContainersByLabel s (labelFilter cfg) false with
    | nil => exact absurd hl hguard
    | cons a l => rfl
  unfold runnerStart
  rw [hport, hne]
  simp

/-- Witness for C2: a first start on the empty daemon succeeds; the
second start with the same label fails with the already-running error and
leaves the daemon exactly as the first start left it. -/
theorem c2_start_duplicate_guard_witness :
    runnerStart exCfg exOpts exWorld DockerState.empty
      = some (exStartedState, .ok ())
    ∧ runnerStart exCfg exOpts exWorld exStartedState
      = some (exStartedState, .error .alreadyRunning) :=
  ⟨by decide,
   c2_start_duplicate_guard exCfg exOpts exWorld exStartedState rfl (by decide)⟩

/-- C3: whenever Start succeeded and the health endpoint poll does not
end in the ready state, the start command stops the containers of the
session by label and only then reports the readiness failure. -/
theorem c3_readiness_failure_stops (cfg : RunnerCfg) (opts : StartOptions)
    (w : CliWorld) (s s1 : DockerState)
    (hstart : runnerStart cfg opts w.sw s = some (s1, .ok ()))
    (hpoll : waitForWebserverReady (healthUrl opts.port) w.health w.healthBudget ≠ .ready) :
    startCommandFlow cfg opts w s = some (runnerStop cfg s1, .error .notReady) := by
  unfold startCommandFlow
  rw [hstart]
  cases hres : waitForWebserverReady (healthUrl opts.port) w.health w.healthBudget with
  | ready => exact absurd hres hpoll
  | timeout => rfl
  | badScheme => rfl

/-- Witness for C3: a successful start followed by a health endpoint that
answers 500 on every poll ends with the label-scoped stop applied and the
not-ready failure reported. -/
theorem c3_readiness_failure_stops_witness :
    startCommandFlow exCfg exOpts exCliWorldUnhealthy DockerState.empty
      = some (runnerStop exCfg exStartedState, .error .notReady) :=
  c3_readiness_failure_stops exCfg exOpts exCliWorldUnhealthy DockerState.empty
    exStartedState (by decide) (by decide)

theorem pollLoop_ready_iff (responses : Nat → Option Nat) :
    ∀ (fuel i : Nat), pollLoop responses fuel i = .ready ↔
      ∃ j, j < fuel ∧ responses (i + j) = some 200 := by
  intro fuel
  induction fuel with
  | zero =>
    intro i
    constructor
    · intro h; exact absurd h (by simp [pollLoop])
    · rintro ⟨j, hj, _⟩; omega
  | succ m ih =>
    intro i
    by_cases h : responses i = some 200
    · constructor
      · intro _; exact ⟨0, by omega, by rwa [Nat.add_zero]⟩
      · intro _; simp [pollLoop, h]
    · rw [pollLoop, if_neg h, ih (i + 1)]
      constructor
      · rintro ⟨j, hj, hr⟩
        refine ⟨j + 1, by omega, ?_⟩
        rwa [show i + (j + 1) = i + 1 + j by omega]
      · rintro ⟨j, hj, hr⟩
        cases j with
        | zero => rw [Nat.add_zero] at hr; exact absurd hr h
        | succ k =>
          refine ⟨k, by omega, ?_⟩
          rwa [show i + 1 + k = i + (k + 1) by omega]

theorem pollLoop_ne_badScheme (responses : Nat → Option Nat) :
    ∀ (fuel i : Nat), pollLoop responses fuel i ≠ .badScheme := by
  intro fuel
  induction fuel with
  | zero => intro i h; exact PollResult.noConfusion h
  | succ m ih =>
    intro i h
    rw [pollLoop] at h
    by_cases hr : responses i = some 200
    · rw [if_pos hr] at h; exact PollResult.noConfusion h
    · rw [if_neg hr] at h; exact ih (i + 1) h

/-- C4: the readiness poller rejects every URL whose scheme is neither
http nor https independently of the responses, so no request is issued;
on an accepted URL it succeeds exactly when some poll within the budget
answers 200, it times out exactly otherwise, and any answer other than
200 (a non-200 status or a transport error) merely consumes one tick of
the budget and keeps polling. -/
theorem c4_waitForWebserverReady (u : Url) (responses : Nat → Option Nat) (budget : Nat) :
    ((u.scheme ≠ "http" ∧ u.scheme ≠ "https") →
        waitForWebserverReady u responses budget = .badScheme)
    ∧ ((u.scheme = "http" ∨ u.scheme = "https") →
        ((waitForWebserverReady u responses budget = .ready ↔
            ∃ i, i < budget ∧ responses i = some 200)
         ∧ (waitForWebserverReady u responses budget = .timeout ↔
            ¬ ∃ i, i < budget ∧ responses i = some 200)))
    ∧ (∀ fuel i, responses i ≠ some 200 →
        pollLoop responses (fuel + 1) i = pollLoop responses fuel (i + 1)) := by
  refine ⟨?_, ?_, ?_⟩
  · intro hbad
    unfold waitForWebserverReady
    rw [if_pos hbad]
  · intro hgood
    have hcond : ¬(u.scheme ≠ "http" ∧ u.scheme ≠ "https") := by
      rcases hgood with h | h <;> simp [h]
    have hred : waitForWebserverReady u responses budget = pollLoop responses budget 0 := by
      unfold waitForWebserverReady
      rw [if_neg hcond]
    have hready : pollLoop responses budget 0 = .ready ↔
        ∃ i, i < budget ∧ responses i = some 200 := by
      rw [pollLoop_ready_iff responses budget 0]
      constructor
      · rintro ⟨j, hj, hr⟩; exact ⟨j, hj, by rwa [Nat.zero_add] at hr⟩
      · rintro ⟨j, hj, hr⟩; exact ⟨j, hj, by rwa [Nat.zero_add]⟩
    refine ⟨by rw [hred]; exact hready, ?_⟩
    rw [hred]
    constructor
    · intro ht hex
      rw [hready.mpr hex] at ht
      exact PollResult.noConfusion ht
    · intro hnex
      cases hp : pollLoop responses budget 0 with
      | ready => exact absurd (hready.mp hp) hnex
      | timeout => rfl
      | badScheme => exact absurd hp (pollLoop_ne_badScheme responses budget 0)
  · intro fuel i h
    rw [pollLoop, if_neg h]

/-- Witness for C4: the file scheme is rejected before any request, the
endpoint answering 503 four times and then 200 succeeds within a budget
of ten polls, and the endpoint always answering 500 times out. -/
theorem c4_waitForWebserverReady_witness :
    waitForWebserverReady exFileUrl exAlways500 10 = .badScheme
    ∧ waitForWebserverReady exHttpUrl ex503Then200 10 = .ready
    ∧ waitForWebserverReady exHttpUrl exAlways500 10 = .timeout := by
  refine ⟨?_, ?_, ?_⟩
  · exact (c4_waitForWebserverReady exFileUrl exAlways500 10).1 (by decide)
  · exact (((c4_waitForWebserverReady exHttpUrl ex503Then200 10).2.1 (Or.inl rfl)).1).mpr
      ⟨4, by omega, by decide⟩
  · exact (((c4_waitForWebserverReady exHttpUrl exAlways500 10).2.1 (Or.inl rfl)).2).mpr
      (by rintro ⟨i, hi, hr⟩
          simp [exAlways500] at hr)

theorem splitOnceEq_eq_none_iff (l : List Char) : splitOnceEq l = none ↔ '=' ∉ l := by
  induction l with
  | nil => simp [splitOnceEq]
  | cons c cs ih =>
    rw [splitOnceEq]
    by_cases h : c = '='
    · subst h
      simp
    · rw [if_neg h, List.mem_cons]
      constructor
      · intro hm
        cases hs : splitOnceEq cs with
        | none =>
          rintro (heq | hmem)
          · exact h heq.symm
          · exact (ih.mp hs) hmem
        | some p =>
          obtain ⟨a, b⟩ := p
          rw [hs] at hm
          simp at hm
      · intro hnor
        have hcs : '=' ∉ cs := fun hm => hnor (Or.inr hm)
        rw [ih.mpr hcs]

/-- C5: ParseEnv skips blank lines and lines starting with a hash, fails
the whole parse on any other line lacking an equals sign, truncates
unquoted values at an inline space-hash marker, processes the
backslash-quote, backslash-n and backslash-r escapes of double-quoted
values and strips the quotes, takes single-quoted values verbatim between
the quotes, and renders an empty double-quoted value exactly like an
explicitly empty unquoted value. -/
theorem c5_parseEnv :
    (∀ line rest,
        (trimSpace line.toList = [] ∨ headIs '#' (trimSpace line.toList) = true) →
        parseEnv (line :: rest) = parseEnv rest)
    ∧ (∀ line rest, trimSpace line.toList ≠ [] →
        headIs '#' (trimSpace line.toList) = false →
        '=' ∉ trimSpace line.toList →
        parseEnv (line :: rest) = .error (String.mk (trimSpace line.toList)))
    ∧ parseEnv ["KEY=\"a \\\"b\\\" c\""] = .ok ["KEY=a \"b\" c"]
    ∧ parseEnv ["KEY='a $b'"] = .ok ["KEY=a $b"]
    ∧ parseEnv ["KEY=\"\""] = .ok ["KEY="]
    ∧ parseEnv ["KEY="] = .ok ["KEY="]
    ∧ parseEnv ["KEY=value # comment"] = .ok ["KEY=value"] := by
  refine ⟨?_, ?_, by decide, by decide, by decide, by decide, by decide⟩
  · intro line rest h
    have hl : parseEnvLine line = none := by
      simp only [parseEnvLine]
      rw [if_pos h]
    conv_lhs => rw [parseEnv]
    rw [hl]
  · intro line rest h1 h2 h3
    have hcond : ¬(trimSpace line.toList = [] ∨ headIs '#' (trimSpace line.toList) = true) := by
      rintro (hc | hc)
      · exact h1 hc
      · rw [h2] at hc; exact Bool.noConfusion hc
    have hsplit : splitOnceEq (trimSpace line.toList) = none :=
      (splitOnceEq_eq_none_iff _).mpr h3
    have hl : parseEnvLine line = some (.error (String.mk (trimSpace line.toList))) := by
      simp only [parseEnvLine]
      rw [if_neg hcond, hsplit]
    conv_lhs => rw [parseEnv]
    rw [hl]

/-- Witness for C5: a comment line vanishes from the parse, and a line
without an equals sign aborts the parse with the malformed-line error. -/
theorem c5_parseEnv_witness :
    parseEnv ["# comment", "A=1"] = parseEnv ["A=1"]
    ∧ parseEnv ["NOEQUALS"] = .error "NOEQUALS" := by
  refine ⟨?_, ?_⟩
  · exact c5_parseEnv.1 "# comment" ["A=1"] (Or.inr rfl)
  · exact c5_parseEnv.2.1 "NOEQUALS" [] (by decide) (by decide) (by decide)

theorem lookupAssoc_updateAssoc (acc : List (String × String)) (k v key : String) :
    lookupAssoc (updateAssoc acc k v) key
      = if k = key then some v else lookupAssoc acc key := by
  induction acc with
  | nil => rfl
  | cons p rest ih =>
    obtain ⟨k', v'⟩ := p
    by_cases h : k' = k
    · subst h
      by_cases hk : k' = key
      · subst hk
        simp [updateAssoc, lookupAssoc]
      · simp [updateAssoc, lookupAssoc, hk]
    · by_cases hk' : k' = key
      · subst hk'
        have hne : ¬k = k' := fun hc => h hc.symm
        simp [updateAssoc, lookupAssoc, h, hne]
      · simp [updateAssoc, lookupAssoc, h, hk', ih]

theorem lookupAssoc_mergeFold (ig : Bool) (key : String) :
    ∀ (xs : List String) (acc : List (String × String)),
      lookupAssoc (xs.foldl (mergeStep ig) acc) key =
        match lastRelevant ig key xs with
        | some v => some v
        | none => lookupAssoc acc key := by
  intro xs
  induction xs with
  | nil => intro acc; rfl
  | cons e rest ih =>
    intro acc
    rw [List.foldl_cons, ih]
    cases hlast : lastRelevant ig key rest with
    | some v => simp [lastRelevant, hlast]
    | none =>
      simp only [lastRelevant, hlast]
      cases hsplit : splitOnceEq e.toList with
      | none =>
        have hsplit' : splitOnceEq e.data = none := hsplit
        simp [mergeStep, hsplit, hsplit']
      | some p =>
        obtain ⟨k, v⟩ := p
        have hsplit' : splitOnceEq e.data = some (k, v) := hsplit
        by_cases hemp : (ig && v.isEmpty) = true
        · have hig : ig = true := by
            rcases Bool.and_eq_true_iff.mp hemp with ⟨h1, _⟩
            exact h1
          have hv : v = [] := by
            rcases Bool.and_eq_true_iff.mp hemp with ⟨_, h2⟩
            simpa using h2
          simp [mergeStep, hsplit, hsplit', hemp, hig, hv]
        · simp only [mergeStep, hsplit, hsplit', hemp, Bool.false_eq_true, if_false,
            lookupAssoc_updateAssoc]
          by_cases hk : String.mk k = key
          · simp [hk, hemp]
          · simp [hk, hemp]

/-- C6: the merge resolves duplicate keys with the last let-through
occurrence winning: the lookup in the produced map equals the value of
the last entry for the key that splits at an equals sign and, under
ignoreEmpty, has a non-empty value.  In particular the three quoted
examples produce exactly the stated key/value sets. -/
theorem c6_mergeEnvVars (xs : List String) (ig : Bool) (key : String) :
    lookupAssoc (mergeEnvVars xs ig) key = lastRelevant ig key xs
    ∧ mergeEnvVars ["A=1", "B=2", "A=3"] false = [("A", "3"), ("B", "2")]
    ∧ mergeEnvVars ["A=1", "A="] true = [("A", "1")]
    ∧ mergeEnvVars ["A=1", "A="] false = [("A", "")] := by
  refine ⟨?_, by decide, by decide, by decide⟩
  unfold mergeEnvVars
  rw [lookupAssoc_mergeFold]
  cases h : lastRelevant ig key xs with
  | some v => rfl
  | none => rfl

/-- C7: the installer refuses a non-empty clone path and writes nothing
in that case; on an absent or empty clone path with a successful clone it
succeeds, creates the db-data directory under the clone path, leaves the
clone path non-empty, and a second run on the resulting filesystem fails
with the non-empty-target error. -/
theorem c7_installerRun (fs : InstallFS) (repo : Option (List String)) :
    (fs.cloneStatus = .nonEmptyDir →
        installerRun fs repo = (.error .nonEmptyTarget, fs))
    ∧ (fs.cloneStatus ≠ .nonEmptyDir → ∀ files, repo = some files →
        (installerRun fs repo).1 = .ok ()
        ∧ "db-data" ∈ (installerRun fs repo).2.underClone
        ∧ (installerRun fs repo).2.cloneStatus = .nonEmptyDir
        ∧ installerRun (installerRun fs repo).2 repo
            = (.error .nonEmptyTarget, (installerRun fs repo).2)) := by
  constructor
  · intro h
    unfold installerRun
    rw [h]
    rfl
  · intro h files hrepo
    subst hrepo
    have hok : ensurePathIsEmptyOrNonExistent fs.cloneStatus = true := by
      cases hc : fs.cloneStatus with
      | absent => rfl
      | emptyDir => rfl
      | nonEmptyDir => exact absurd hc h
    have hred : installerRun fs (some files) =
        (.ok (),
         { files.foldl placeFile fs with
            underClone := (files.foldl placeFile fs).underClone ++ ["db-data"],
            cloneStatus := .nonEmptyDir }) := by
      unfold installerRun
      rw [hok]
      rfl
    refine ⟨by rw [hred], ?_, by rw [hred], ?_⟩
    · rw [hred]
      simp
    · rw [hred]
      unfold installerRun
      rfl

/-- Witness for C7: an init into an absent clone path succeeds and
creates the db-data directory; running the installer again on the
resulting filesystem fails with the non-empty-target error. -/
theorem c7_installerRun_witness :
    (installerRun exInstallFS (some exRepoFiles)).1 = .ok ()
    ∧ "db-data" ∈ (installerRun exInstallFS (some exRepoFiles)).2.underClone
    ∧ installerRun (installerRun exInstallFS (some exRepoFiles)).2 (some exRepoFiles)
        = (.error .nonEmptyTarget, (installerRun exInstallFS (some exRepoFiles)).2) := by
  have h := (c7_installerRun exInstallFS (some exRepoFiles)).2 (by decide) exRepoFiles rfl
  exact ⟨h.1, h.2.1, h.2.2.2⟩

theorem buildEnvironmentVariables_some_ne_none (lines : List String) (e : Envs) :
    buildEnvironmentVariables lines (some e) ≠ none := by
  unfold buildEnvironmentVariables
  cases h : parseEnv lines with
  | error err => simp
  | ok base => simp [toSliceOfPtr]

/-- C9: the environment-assembly step of Start and TestStartupScript
render the Envs overlay through ToSlice unconditionally, and a nil
overlay pointer faults there (modelled as the none outcome), so the
operations are fault-free exactly under a non-nil overlay; the default
start options leave the overlay nil, and the option function the CLI
passes always installs a non-nil overlay. -/
theorem c9_envs_nil_fault :
    defaultStartOptions.envs = none
    ∧ toSliceOfPtr none = none
    ∧ (∀ e : Envs, (toSliceOfPtr (some e)).isSome = true)
    ∧ (∀ lines base, parseEnv lines = .ok base →
        buildEnvironmentVariables lines none = none)
    ∧ (∀ lines (e : Envs), buildEnvironmentVariables lines (some e) ≠ none)
    ∧ (∀ s : DockerState, testStartupScript s none = none)
    ∧ (∀ (s : DockerState) (e : Envs), (testStartupScript s (some e)).isSome = true)
    ∧ (∀ port r creds, (cliStartOptionFn port r creds defaultStartOptions).envs.isSome = true)
    ∧ (∀ (cfg : RunnerCfg) (opts : StartOptions) (w : StartWorld) (s : DockerState)
        (d : ComposeDoc) (svc : String × List String) (base : List String),
        opts.envs = none →
        w.portFree = true →
        listContainersByLabel s (labelFilter cfg) false = [] →
        w.compose = some d →
        getService d "postgres" = some svc →
        waitForContainerReady w.postgresInspect (5 * 60) = .ready →
        parseEnv w.envFileLines = .ok base →
        runnerStart cfg opts w s = none)
    ∧ (∀ (cfg : RunnerCfg) (opts : StartOptions) (w : StartWorld) (s : DockerState),
        opts.envs.isSome = true → runnerStart cfg opts w s ≠ none) := by
  refine ⟨rfl, rfl, ?_, ?_, ?_, ?_, ?_, ?_, ?_, ?_⟩
  · intro e; rfl
  · intro lines base hparse
    unfold buildEnvironmentVariables
    rw [hparse]
    rfl
  · intro lines e
    exact buildEnvironmentVariables_some_ne_none lines e
  · intro s; rfl
  · intro s e; rfl
  · intro port r creds; rfl
  · intro cfg opts w s d svc base hnil hport hempty hcomp hsvc hwait hparse
    have hbuild : buildEnvironmentVariables w.envFileLines opts.envs = none := by
      rw [hnil]
      unfold buildEnvironmentVariables
      rw [hparse]
      rfl
    unfold runnerStart
    rw [hport, hempty, hcomp]
    simp [hsvc, hwait, hbuild]
  · intro cfg opts w s hsome hcontra
    obtain ⟨e, he⟩ := Option.isSome_iff_exists.mp hsome
    unfold runnerStart at hcontra
    rw [he] at hcontra
    repeat' split at hcontra
    all_goals
      first
      | exact buildEnvironmentVariables_some_ne_none _ e (by assumption)
      | simp_all

/-- Witness for C9: a nil overlay faults in the environment assembly and
in the full Start on an otherwise fully successful world, the default
options carry the nil overlay, and the same Start with a non-nil overlay
does not fault. -/
theorem c9_envs_nil_fault_witness :
    buildEnvironmentVariables ["AIRFLOW__CORE__LOAD_EXAMPLES=False"] none = none
    ∧ runnerStart exCfg defaultStartOptions exWorld DockerState.empty = none
    ∧ testStartupScript DockerState.empty none = none
    ∧ runnerStart exCfg exOpts exWorld DockerState.empty ≠ none := by
  refine ⟨?_, ?_, ?_, ?_⟩
  · exact c9_envs_nil_fault.2.2.2.1 ["AIRFLOW__CORE__LOAD_EXAMPLES=False"]
      ["AIRFLOW__CORE__LOAD_EXAMPLES=False"] (by decide)
  · exact c9_envs_nil_fault.2.2.2.2.2.2.2.2.1 exCfg defaultStartOptions exWorld
      DockerState.empty exCompose ("postgres:11-alpine", ["POSTGRES_USER=airflow"])
      ["AIRFLOW__CORE__LOAD_EXAMPLES=False"] rfl rfl (by decide) rfl rfl (by decide) (by decide)
  · exact c9_envs_nil_fault.2.2.2.2.2.1 DockerState.empty
  · exact c9_envs_nil_fault.2.2.2.2.2.2.2.2.2 exCfg exOpts exWorld DockerState.empty rfl

/-- Witness for C6: the general last-let-through-wins characterisation
evaluated on the ignoreEmpty example. -/
theorem c6_mergeEnvVars_witness :
    lookupAssoc (mergeEnvVars ["A=1", "A="] true) "A"
      = lastRelevant true "A" ["A=1", "A="] :=
  (c6_mergeEnvVars ["A=1", "A="] true "A").1
